import Mathlib

/-!
Verification of the ZSim HDF5 viewer (zsimview.py).

The viewer is a single-window GUI application over an HDF5 file holding a
"stats" dataset of compound records, each with a "root" member.  We embed the
program state (widgets, open file, selections, the on-disk state json) as a
structure `Viewer` and the event handlers as pure functions on it.  Values
read from compound record fields are modelled by the inductive `PyVal`;
numeric scalars are modelled by rationals.
-/

namespace ZSimView

/-- One cell-level value inside a compound record: either a numeric scalar or
a (row-major) numeric sub-array, as stored by h5py for array-typed members. -/
inductive CellVal where
  | num (q : Rat)
  | arrv (shape : List Nat) (data : List Rat)
deriving Repr, DecidableEq

/-- Member type of a compound dtype: numeric scalar member, or sub-array
member of a given shape.  Used to build the zero of `numpy.sum` over an empty
axis. -/
inductive MTy where
  | scalar
  | sub (shape : List Nat)
deriving Repr, DecidableEq

/-- A Python value as produced by indexing a compound record, covering the
four shapes dispatched on by `display_value`:
* `pyScalar`: a plain Python number (no `dtype` attribute), `float` succeeds;
* `pyOther`: any other plain Python object (no `dtype`), `float` raises;
* `npNum`: a numpy numeric scalar (`dtype.names` is `None`);
* `npVoid`: a scalar compound (`np.void`, `dtype.names` set);
* `npNumArr`: a numeric ndarray, `shape` with row-major (C-order) `data`;
* `npCompArr`: a 1-D ndarray of compound records (`dtype.names` set). -/
inductive PyVal where
  | pyScalar (q : Rat)
  | pyOther (s : String)
  | npNum (q : Rat)
  | npVoid (fields : List (String × CellVal))
  | npNumArr (shape : List Nat) (data : List Rat)
  | npCompArr (nm : List (String × MTy)) (recs : List (List CellVal))
deriving Repr

/-- A snapshot record `stats[i]["root"]`: named fields in dtype order; a field
mapped to `none` raises on read (h5py/numpy read failure). -/
structure Record where
  fields : List (String × Option PyVal)
deriving Repr

/-- The "stats" dataset: whether its compound dtype has a "root" member, and
the per-index result of reading `stats[i]["root"]` (`none` = read raises). -/
structure StatsDataset where
  rootInFields : Bool
  records : List (Option Record)
deriving Repr

/-- An opened HDF5 file: `stats` is the "stats" dataset when present. -/
structure H5File where
  stats : Option StatsDataset
deriving Repr

/-- Result of `h5py.File(path, "r")`. -/
inductive OpenOutcome where
  | fail (msg : String)
  | ok (file : H5File)
deriving Repr

/-- The environment: what the filesystem answers for `os.path.exists` and for
opening a path with h5py. -/
structure World where
  fileExists : String → Bool
  openAt : String → OpenOutcome

/-- Content of the on-disk state json written by `_save_state`. -/
structure SavedState where
  dark_mode : Bool
  last_file : Option String
  last_snapshot : Option Int
  last_field : Option String
deriving Repr, DecidableEq

/-- The QTableWidget contents: dimensions, header labels and the grid of
cells, each cell being its text plus the numeric-alignment flag set by
`_set_item`. -/
structure Table where
  rowCount : Nat := 0
  colCount : Nat := 0
  hHeaders : List String := []
  vHeaders : List String := []
  cells : List (List (String × Bool)) := []
deriving Repr, DecidableEq

/-- The whole observable application state: the `ZSimHDFViewer` attributes,
the widgets, the dialogs shown so far and the on-disk state file (the app is
the only reader/writer of that file, so it is carried here). -/
structure Viewer where
  h5_file : Option H5File := none
  dset : Option StatsDataset := none
  current_snapshot_index : Option Int := none
  current_record : Option Record := none
  last_field_name : Option String := none
  current_file_path : Option String := none
  dark_mode : Bool := false
  style_dark : Bool := false
  watched_paths : List String := []
  snapshot_list : List String := []
  snapshot_row : Int := -1
  field_list : List String := []
  field_row : Int := -1
  table : Table := {}
  info_label : String := "Select a snapshot and a field."
  window_title : String := "ZSim HDF5 Viewer"
  dialogs : List String := []
  state_file : Option SavedState := none
deriving Repr

/-- The state of a fresh `ZSimHDFViewer` right after `__init__` set its
attributes and built the UI (before `open_file`/`_load_state` runs), given
the current content of the on-disk state file. -/
def initViewer (st : Option SavedState) : Viewer := { state_file := st }

/-! ## Formatting helpers (`_format_value` and the Python format specs) -/

/-- Insert a thousands separator after every third digit of a reversed digit
list (models the `,` option of Python format specs). -/
def groupRev : List Char → List Char
  | c1 :: c2 :: c3 :: c4 :: rest => c1 :: c2 :: c3 :: ',' :: groupRev (c4 :: rest)
  | l => l

/-- Decimal digits of `n` with thousands separators. -/
def natThousands (n : Nat) : String :=
  String.mk ((groupRev (toString n).toList.reverse).reverse)

/-- Models `f"{n:,}"` for a Python int `n`. -/
def intThousands (n : Int) : String :=
  (if n < 0 then "-" else "") ++ natThousands n.natAbs

/-- Two-digit zero-padded decimal (for exponents of `%.3e`). -/
def pad2 (n : Nat) : String :=
  if n < 10 then "0" ++ toString n else toString n

/-- Three-digit zero-padded decimal (for the fractional part of `%.3f`). -/
def pad3 (n : Nat) : String :=
  if n < 10 then "00" ++ toString n
  else if n < 100 then "0" ++ toString n
  else toString n

/-- Round a rational to the nearest integer, ties to even (the rounding used
by Python float formatting, idealised over exact rationals). -/
def rhe (q : Rat) : Int :=
  let f := Rat.floor q
  let r := q - (f : Rat)
  if r < 1/2 then f
  else if (1 : Rat)/2 < r then f + 1
  else if f % 2 = 0 then f else f + 1

/-- Models `f"{fv:,.3f}"`: fixed-point, 3 decimals, thousands separators. -/
def fixed3 (q : Rat) : String :=
  let t := rhe (q * 1000)
  (if q < 0 then "-" else "")
    ++ natThousands (t.natAbs / 1000) ++ "." ++ pad3 (t.natAbs % 1000)

/-- Smallest `k` with `x * 10 ^ k ≥ 1`, by fuel (fuel `≥ x.den` suffices for
positive `x`). -/
def negExp10 : Rat → Nat → Nat
  | _, 0 => 0
  | x, fuel + 1 => if 1 ≤ x then 0 else negExp10 (x * 10) fuel + 1

/-- `⌊log10 q⌋` for a positive rational `q`. -/
def ilog10 (q : Rat) : Int :=
  if 1 ≤ q then (Nat.log 10 (Rat.floor q).toNat : Int)
  else - (negExp10 q q.den : Int)

/-- Exponent suffix of `%.3e`: forced sign, at least two digits. -/
def expStr (e : Int) : String :=
  (if e < 0 then "-" else "+") ++ pad2 e.natAbs

/-- Models `f"{fv:.3e}"`: scientific notation with a 3-decimal mantissa. -/
def sci3 (q : Rat) : String :=
  if q = 0 then "0.000e+00"
  else
    let a := |q|
    let e := ilog10 a
    let m := if 0 ≤ e then a / (10 : Rat) ^ e.toNat else a * (10 : Rat) ^ (-e).toNat
    let t0 := rhe (m * 1000)
    let t := if 10000 ≤ t0 then 1000 else t0
    let e2 := if 10000 ≤ t0 then e + 1 else e
    (if q < 0 then "-" else "")
      ++ toString (t.toNat / 1000) ++ "." ++ pad3 (t.toNat % 1000) ++ "e" ++ expStr e2

/-- Element rendering inside `numpy.array2string` (numpy prints integral
floats as `n.`); approximates numpy's element formatter. -/
def npElemStr (q : Rat) : String :=
  if q.den = 1 then toString q.num ++ "." else fixed3 q

/-- Models `numpy.array2string(v, separator=",")` (bracket nesting of
higher-dimensional arrays is not reproduced; elements appear in row-major
order separated by the comma separator). -/
def array2string (shape : List Nat) (data : List Rat) : String :=
  "[" ++ String.intercalate "," (data.map npElemStr) ++ "]"

/-- The discriminated argument of `_format_value`: a numpy ndarray, a value
on which `float` succeeds, or a value on which `float` raises. -/
inductive FmtIn where
  | ndarr (shape : List Nat) (data : List Rat)
  | numeric (q : Rat)
  | other (s : String)
deriving Repr

/-- `_format_value`: returns `(text, is_numeric)`.  Arrays render via
`array2string` and are not numeric; float-convertible values are numeric and
format as integer-with-separators / scientific / fixed-point; anything else
renders via `str`.  (`fv.is_integer()` is `q.den = 1` on the rational
model.) -/
def format_value : FmtIn → String × Bool
  | .ndarr sh d => (array2string sh d, false)
  | .numeric q =>
      if q.den = 1 then (intThousands q.num, true)
      else if (1000000 : Rat) ≤ |q| ∨ (0 < |q| ∧ |q| < 1/1000) then (sci3 q, true)
      else (fixed3 q, true)
  | .other s => (s, false)

/-- Format one compound-record cell through `_format_value`. -/
def fmtCell : CellVal → String × Bool
  | .num q => format_value (.numeric q)
  | .arrv s d => format_value (.ndarr s d)

/-! ## `display_value` -/

/-- The zero of `numpy.sum(col, axis=0)` for a column of the given member
type (scalar zero, or an all-zero sub-array). -/
def MTy.zero : MTy → CellVal
  | .scalar => .num 0
  | .sub s => .arrv s (List.replicate s.prod 0)

/-- Elementwise addition of cells (scalar + scalar, sub-array + sub-array);
a dtype keeps each column homogeneous, so the mismatched case is inert. -/
def addCell : CellVal → CellVal → CellVal
  | .num a, .num b => .num (a + b)
  | .arrv s a, .arrv _ b => .arrv s (List.zipWith (· + ·) a b)
  | a, _ => a

/-- `numpy.sum(col_data, axis=0)` over the column of one compound member. -/
def colSum (ty : MTy) (col : List CellVal) : CellVal :=
  col.foldl addCell ty.zero

/-- The SUM row (row 0) of the array-of-compound rendering: column `j` holds
`np.sum(arr[n_j], axis=0)` formatted by `_set_item`. -/
def sumRow (nm : List (String × MTy)) (recs : List (List CellVal)) :
    List (String × Bool) :=
  (List.range nm.length).map fun j =>
    fmtCell (colSum (nm.getD j ("", .scalar)).2 (recs.map fun r => r.getD j (.num 0)))

/-- The 1x1 "value" table produced for scalar values (both the plain-Python
scalar branch and the numpy-scalar branch of `display_value`). -/
def scalarTable (field_name : String) (x : FmtIn) (v : Viewer) : Viewer :=
  { v with
    table := { rowCount := 1, colCount := 1, hHeaders := ["value"],
               vHeaders := ["0"], cells := [[format_value x]] },
    info_label := s!"Field \x27{field_name}\x27: scalar value" }

/-- `display_value`: dispatches on the shape of `value` and fills the table.
Mirrors the four-way conditional of the source: plain scalar, scalar
compound, array of compound (with SUM row), 1-D numeric array, and
higher-dimensional numeric array flattened in row-major order (`reshape(-1)`
of a C-order buffer is the buffer itself). -/
def display_value (field_name : String) (value : PyVal) (v : Viewer) : Viewer :=
  match value with
  | .pyScalar q => scalarTable field_name (.numeric q) v
  | .pyOther s => scalarTable field_name (.other s) v
  | .npNum q => scalarTable field_name (.numeric q) v
  | .npVoid fields =>
      let names := fields.map (·.1)
      let k := names.length
      { v with
        table := { rowCount := 1, colCount := names.length, hHeaders := names,
                   vHeaders := ["0"],
                   cells := [fields.map fun p => fmtCell p.2] },
        info_label := s!"Field \x27{field_name}\x27: scalar compound with {k} fields" }
  | .npCompArr nm recs =>
      let names := nm.map (·.1)
      let rows := recs.length
      { v with
        table := { rowCount := rows + 1, colCount := names.length,
                   hHeaders := names,
                   vHeaders := "SUM" :: (List.range rows).map toString,
                   cells := sumRow nm recs :: recs.map fun r => r.map fmtCell },
        info_label := s!"Field \x27{field_name}\x27: SUM row + {rows} entries" }
  | .npNumArr shape data =>
      if shape.length = 1 then
        let rows := shape.headD 0
        { v with
          table := { rowCount := rows, colCount := 1, hHeaders := ["value"],
                     vHeaders := (List.range rows).map toString,
                     cells := (List.range rows).map fun i => [fmtCell (.num (data.getD i 0))] },
          info_label := s!"Field \x27{field_name}\x27: 1D array of length {rows}" }
      else
        let rows := shape.prod
        let ndim := shape.length
        { v with
          table := { rowCount := rows, colCount := 1, hHeaders := ["value"],
                     vHeaders := (List.range rows).map toString,
                     cells := (List.range rows).map fun i => [fmtCell (.num (data.getD i 0))] },
          info_label := s!"Field \x27{field_name}\x27: {ndim}D array, flattened to length {rows}" }

/-! ## State persistence, dark mode -/

/-- The json object `_save_state` writes. -/
def saveRecord (v : Viewer) : SavedState :=
  { dark_mode := v.dark_mode, last_file := v.current_file_path,
    last_snapshot := v.current_snapshot_index, last_field := v.last_field_name }

/-- `_save_state`: write the current state to the state file (a failing write
is swallowed by the source; the model takes the write to succeed). -/
def save_state (v : Viewer) : Viewer :=
  { v with state_file := some (saveRecord v) }

/-- `_apply_dark_mode`: record the flag, set or clear the stylesheet, and
persist. -/
def apply_dark_mode (enabled : Bool) (v : Viewer) : Viewer :=
  save_state { v with dark_mode := enabled, style_dark := enabled }

/-! ## Reading records and fields -/

/-- `self.current_record[field_name]`: `none` if the name is absent from the
record or reading the member raises (both raise in the source and are caught
by the caller). -/
def fieldRead (rec : Record) (name : String) : Option PyVal :=
  (rec.fields.find? fun kv => kv.1 == name).bind (·.2)

/-- `int(v)` on a Python/numpy scalar: truncation toward zero; raises
(`none`) on compounds, arrays and non-numeric objects. -/
def ratTrunc (q : Rat) : Int :=
  if 0 ≤ q then Rat.floor q else Rat.ceil q

/-- `int(v)` for the values `PyVal` can take. -/
def pyToInt : PyVal → Option Int
  | .pyScalar q => some (ratTrunc q)
  | .npNum q => some (ratTrunc q)
  | _ => none

/-- The `time` extraction of `open_file`'s label loop:
`int(time_arr[-1]) if hasattr(time_arr, "__len__") else int(time_arr)`.
A 0-d array has no `__len__`, so `int(arr)` reads its single element; a 1-D
array yields its last element (raising when empty); `time_arr[-1]` of a
higher-dimensional array is a sub-array on which `int` raises, as it does on
compound values. -/
def timeToInt : PyVal → Option Int
  | .npNumArr shape data =>
      if shape.length = 0 then some (ratTrunc (data.getD 0 0))
      else if shape.length = 1 then data.getLast?.map ratTrunc
      else none
  | .npCompArr _ _ => none
  | x => pyToInt x

/-- The metadata extraction inside the label loop of `open_file`:
`phase = int(rec["phase"])` and the `time` value; `none` when any step
raises. -/
def metaOf (rec : Record) : Option (Int × Int) :=
  match fieldRead rec "phase" with
  | none => none
  | some pv =>
      match pyToInt pv with
      | none => none
      | some ph =>
          match fieldRead rec "time" with
          | none => none
          | some tv => (timeToInt tv).map fun t => (ph, t)

/-- The label of snapshot `i` in the list: phase/time metadata when the
record and its metadata read, the bare index otherwise (the `try` block of
the label loop covers both the record read and the metadata extraction). -/
def snapLabel (i : Nat) (r : Option Record) : String :=
  match r with
  | none => s!"{i}"
  | some rec =>
      match metaOf rec with
      | some pt =>
          let ph := pt.1
          let t := pt.2
          s!"{i}: phase={ph}, time={t}"
      | none => s!"{i}"

/-- `self.dset[row]["root"]`: `none` when the index is out of bounds or the
read raises (both are caught by the caller's `except`). -/
def readRecord (ds : StatsDataset) (row : Int) : Option Record :=
  if 0 ≤ row ∧ row.toNat < ds.records.length then ds.records.getD row.toNat none
  else none

/-! ## Selection handlers -/

/-- `on_field_selected`: slot of `field_list.currentRowChanged` (also called
explicitly by `on_snapshot_selected`).  Returns unchanged when no record is
selected or the row is negative; otherwise notes the field name, reads the
value (dialog on failure) and renders it.  (When the row exceeds the list
count the source would raise an uncaught AttributeError on `item(row)`; Qt
never emits such rows, and the model leaves the state unchanged there.) -/
def on_field_selected (v : Viewer) (row : Int) : Viewer :=
  match v.current_record with
  | none => v
  | some rec =>
      if row < 0 then v
      else
        match v.field_list.get? row.toNat with
        | none => v
        | some field_name =>
            let v1 := { v with last_field_name := some field_name }
            match fieldRead rec field_name with
            | some value => save_state (display_value field_name value v1)
            | none =>
                { v1 with dialogs := v1.dialogs
                    ++ [s!"Failed to read field \x27{field_name}\x27"] }

/-- `on_snapshot_selected`: slot of `snapshot_list.currentRowChanged`.
Ignores negative rows and a missing dataset; otherwise records the index,
reads the snapshot record (dialog on failure), repopulates the field list
(the intervening `field_list.clear()` emits `currentRowChanged(-1)`, a
no-op), reselects the previous field when present (Qt's `setCurrentRow`
emits the change signal and the source then calls the handler once more
explicitly), and persists. -/
def on_snapshot_selected (v : Viewer) (row : Int) : Viewer :=
  if row < 0 then v
  else
    match v.dset with
    | none => v
    | some ds =>
        let v1 := { v with current_snapshot_index := some row }
        match readRecord ds row with
        | none =>
            { v1 with dialogs := v1.dialogs ++ [s!"Failed to read snapshot {row}"] }
        | some rec =>
            let v2 := { v1 with current_record := some rec,
                                field_list := [], field_row := -1, table := {} }
            let field_names := rec.fields.map (·.1)
            let v3 := { v2 with field_list := field_names }
            let v4 :=
              match v3.last_field_name with
              | some pf =>
                  if pf ∈ field_names then
                    let idx : Int := (field_names.indexOf pf : Nat)
                    let va := { v3 with field_row := idx }
                    let vb := on_field_selected va idx
                    on_field_selected vb idx
                  else
                    { v3 with info_label :=
                        s!"Snapshot {row} selected. Field list updated.\nSelect a field to view values." }
              | none =>
                  { v3 with info_label :=
                      s!"Snapshot {row} selected. Field list updated.\nSelect a field to view values." }
            save_state v4

/-- `snapshot_list.setCurrentRow(row)`: updates the widget's current row and,
when the row actually changes, Qt emits `currentRowChanged` into
`on_snapshot_selected`. -/
def snapshot_setCurrentRow (v : Viewer) (row : Int) : Viewer :=
  if row = v.snapshot_row then v
  else on_snapshot_selected { v with snapshot_row := row } row

/-! ## Opening a file -/

/-- `open_file`: close any previous file, open `path` (dialog on failure),
check for the "stats" dataset and its "root" member (dialog and reset on
failure), then repopulate the snapshot list with per-record labels, reset the
selection state and persist.  (`os.path.basename` in the window title is
modelled by the path itself; the widget `clear()` calls emit
`currentRowChanged(-1)`, which both handlers ignore.) -/
def open_file (w : World) (v : Viewer) (path : String) : Viewer :=
  let v0 := if v.h5_file.isSome then { v with h5_file := none, dset := none } else v
  match w.openAt path with
  | .fail e =>
      { v0 with dialogs := v0.dialogs ++ [s!"Failed to open file:\n{e}"] }
  | .ok file =>
      let v1 := { v0 with h5_file := some file }
      match file.stats with
      | none =>
          { v1 with h5_file := none,
                    dialogs := v1.dialogs
                      ++ ["File does not contain a \x27stats\x27 dataset."] }
      | some ds =>
          let v2 := { v1 with dset := some ds, current_file_path := some path,
                              watched_paths := [path] }
          if ds.rootInFields = false then
            { v2 with h5_file := none, dset := none,
                      dialogs := v2.dialogs
                        ++ ["Dataset \x27stats\x27 does not contain a \x27root\x27 field.\nThis viewer is tailored to ZSim/BZSim files."] }
          else
            let labels := (List.range ds.records.length).map fun i =>
              snapLabel i (ds.records.getD i none)
            save_state
              { v2 with
                snapshot_list := labels, snapshot_row := -1,
                field_list := [], field_row := -1, table := {},
                window_title := s!"ZSim HDF5 Viewer - {path}",
                info_label := "Select a snapshot on the left, then a field in the middle.",
                current_snapshot_index := none, current_record := none,
                last_field_name := none }

/-! ## Hot reload and state restore -/

/-- `on_file_changed`: if the current file is unset, empty or gone, do
nothing; otherwise remember the selection, reopen the file and restore the
snapshot row (and the field name attribute) when the remembered index still
fits the new list. -/
def on_file_changed (w : World) (v : Viewer) : Viewer :=
  match v.current_file_path with
  | none => v
  | some p =>
      if p = "" then v
      else if w.fileExists p = false then v
      else
        let snap := v.current_snapshot_index
        let field := v.last_field_name
        let v1 := open_file w v p
        match snap with
        | none => v1
        | some s =>
            if 0 ≤ s ∧ s < (v1.snapshot_list.length : Int) then
              let v2 := { v1 with current_snapshot_index := some s }
              let v3 := snapshot_setCurrentRow v2 s
              { v3 with last_field_name := field }
            else v1

/-- `_load_state`: read the state file (return unchanged when it is missing
or unreadable), restore dark mode (`setChecked` plus the explicit
`_apply_dark_mode` call collapse to one idempotent application), reopen the
last file when the path is truthy and still exists, and reselect the saved
snapshot when its index fits the restored list, then restore the saved field
name attribute. -/
def load_state (w : World) (v : Viewer) : Viewer :=
  match v.state_file with
  | none => v
  | some st =>
      let v1 := apply_dark_mode st.dark_mode { v with dark_mode := st.dark_mode }
      match st.last_file with
      | none => v1
      | some lf =>
          if lf = "" then v1
          else if w.fileExists lf = false then v1
          else
            let v2 := open_file w v1 lf
            match st.last_snapshot with
            | none => v2
            | some ls =>
                if 0 ≤ ls ∧ ls < (v2.snapshot_list.length : Int) then
                  let v3 := snapshot_setCurrentRow v2 ls
                  { v3 with last_field_name := st.last_field }
                else v2

/-! ## Shape classes of `display_value`'s dispatch -/

/-- Plain scalar: no `dtype`, or a numpy scalar whose dtype has no member
names (both render as the 1x1 "value" table). -/
def isScalarShape : PyVal → Bool
  | .pyScalar _ => true
  | .pyOther _ => true
  | .npNum _ => true
  | _ => false

/-- Scalar compound (`np.void` with member names). -/
def isScalarCompoundShape : PyVal → Bool
  | .npVoid _ => true
  | _ => false

/-- Numeric ndarray (no member names). -/
def isScalarArrayShape : PyVal → Bool
  | .npNumArr _ _ => true
  | _ => false

/-- Ndarray of compound records. -/
def isCompoundArrayShape : PyVal → Bool
  | .npCompArr _ _ => true
  | _ => false

/-! ## Helper lemmas -/

theorem getD_range_map {β : Type} (g : Nat → β) (N i : Nat) (hi : i < N) (d : β) :
    (((List.range N).map g).getD i d) = g i := by
  rw [List.getD_eq_getElem?_getD, List.getElem?_map, List.getElem?_range hi]
  rfl

theorem map_range_getD {α β : Type} (l : List α) (d : α) (f : α → β) :
    (List.range l.length).map (fun i => f (l.getD i d)) = l.map f := by
  induction l with
  | nil => rfl
  | cons a t ih =>
      have hc : ((fun i => f ((a :: t).getD i d)) ∘ Nat.succ) = fun i => f (t.getD i d) := by
        funext i
        simp [List.getD_cons_succ]
      rw [List.length_cons, List.range_succ_eq_map, List.map_cons, List.map_map, hc, ih]
      simp [List.getD_cons_zero]

theorem foldl_addCell_num (l : List Rat) (a : Rat) :
    (l.map CellVal.num).foldl addCell (.num a) = .num (a + l.sum) := by
  induction l generalizing a with
  | nil => simp
  | cons x t ih =>
      simp only [List.map_cons, List.foldl_cons, addCell, ih, List.sum_cons]
      rw [add_assoc]

theorem colSum_num (qs : List Rat) :
    colSum .scalar (qs.map CellVal.num) = .num qs.sum := by
  simpa [colSum, MTy.zero] using foldl_addCell_num qs 0

/-! ## Claim theorems -/

/-- C10: for every negative row index, and whenever no dataset is open (for
`on_snapshot_selected`) or no record is selected (for `on_field_selected`),
the selection handlers return the viewer state completely unchanged. -/
theorem c10_handlers_ignore_invalid (v : Viewer) (row : Int) :
    ((row < 0 ∨ v.dset = none) → on_snapshot_selected v row = v) ∧
    ((row < 0 ∨ v.current_record = none) → on_field_selected v row = v) := by
  constructor
  · rintro (h | h)
    · simp [on_snapshot_selected, h]
    · unfold on_snapshot_selected
      rw [h]
      simp
  · rintro (h | h)
    · unfold on_field_selected
      cases v.current_record with
      | none => rfl
      | some rec => simp [h]
    · unfold on_field_selected
      rw [h]

/-- C10 witness: at a fresh viewer and row `-1`, both handlers leave the
state unchanged. -/
theorem c10_witness :
    on_snapshot_selected (initViewer none) (-1) = initViewer none ∧
    on_field_selected (initViewer none) (-1) = initViewer none := by
  have h := c10_handlers_ignore_invalid (initViewer none) (-1)
  exact ⟨h.1 (Or.inl (by decide)), h.2 (Or.inl (by decide))⟩

/-- C9: `_format_value` is a total function (hence deterministic).  A numpy
ndarray renders through the comma-separated `array2string` with
`is_numeric = false`; a float-convertible value is numeric, with
integer-valued inputs (`den = 1`, equivalently the value is an integer)
formatted with thousands separators, non-integers of magnitude at least
`1e6` or strictly between `0` and `1e-3` in 3-decimal scientific notation,
and all other non-integers in 3-decimal fixed point; any other value renders
via `str` with `is_numeric = false`. -/
theorem c9_format_value_spec :
    (∀ q : Rat, (∃ n : Int, q = (n : Rat)) ↔ q.den = 1) ∧
    (∀ sh d, format_value (.ndarr sh d) = (array2string sh d, false)) ∧
    (∀ q : Rat, q.den = 1 → format_value (.numeric q) = (intThousands q.num, true)) ∧
    (∀ q : Rat, q.den ≠ 1 →
        ((1000000 : Rat) ≤ |q| ∨ (0 < |q| ∧ |q| < 1/1000)) →
        format_value (.numeric q) = (sci3 q, true)) ∧
    (∀ q : Rat, q.den ≠ 1 →
        ¬((1000000 : Rat) ≤ |q| ∨ (0 < |q| ∧ |q| < 1/1000)) →
        format_value (.numeric q) = (fixed3 q, true)) ∧
    (∀ s, format_value (.other s) = (s, false)) := by
  refine ⟨?_, fun _ _ => rfl, ?_, ?_, ?_, fun _ => rfl⟩
  · intro q
    constructor
    · rintro ⟨n, rfl⟩
      exact Rat.den_intCast n
    · intro h
      exact ⟨q.num, ((Rat.den_eq_one_iff q).mp h).symm⟩
  · intro q h
    simp only [format_value]
    rw [if_pos h]
  · intro q h1 h2
    simp only [format_value]
    rw [if_neg h1, if_pos h2]
  · intro q h1 h2
    simp only [format_value]
    rw [if_neg h1, if_neg h2]

/-- C9 witness: `3/2` is a non-integer in the fixed-point regime, and `7` is
integer-valued. -/
theorem c9_witness :
    format_value (.numeric ((3 : Rat)/2)) = (fixed3 ((3 : Rat)/2), true) ∧
    (∃ n : Int, (7 : Rat) = (n : Rat)) := by
  have h := c9_format_value_spec
  refine ⟨h.2.2.2.2.1 ((3 : Rat)/2) (by norm_num) ?_, (h.1 7).mpr (by norm_num)⟩
  have habs : |(3 : Rat)/2| = 3/2 := abs_of_pos (by norm_num)
  rw [habs]
  norm_num

/-- C2: every value falls into exactly one of the four shape classes, and
`display_value` renders it accordingly: plain scalars (including numpy
numeric scalars) as a 1x1 "value" table, a scalar compound as one row with a
column per member, a numeric array as a single "value" column, and a
compound array with member columns and a leading SUM row. -/
theorem c2_display_value_dispatch (fn : String) (val : PyVal) (v : Viewer) :
    ((isScalarShape val).toNat + (isScalarCompoundShape val).toNat
      + (isScalarArrayShape val).toNat + (isCompoundArrayShape val).toNat = 1) ∧
    (isScalarShape val = true →
      (display_value fn val v).table.rowCount = 1 ∧
      (display_value fn val v).table.colCount = 1 ∧
      (display_value fn val v).table.hHeaders = ["value"]) ∧
    (∀ fs, val = .npVoid fs →
      (display_value fn val v).table.rowCount = 1 ∧
      (display_value fn val v).table.colCount = fs.length ∧
      (display_value fn val v).table.hHeaders = fs.map (·.1)) ∧
    (∀ sh d, val = .npNumArr sh d →
      (display_value fn val v).table.colCount = 1 ∧
      (display_value fn val v).table.hHeaders = ["value"]) ∧
    (∀ nm recs, val = .npCompArr nm recs →
      (display_value fn val v).table.rowCount = recs.length + 1 ∧
      (display_value fn val v).table.colCount = nm.length ∧
      (display_value fn val v).table.vHeaders.headD "" = "SUM") := by
  refine ⟨?_, ?_, ?_, ?_, ?_⟩
  · cases val <;> rfl
  · cases val <;> intro h <;> simp_all [isScalarShape, display_value, scalarTable]
  · intro fs h
    subst h
    simp [display_value]
  · intro sh d h
    subst h
    by_cases hs : sh.length = 1 <;> simp [display_value, hs]
  · intro nm recs h
    subst h
    simp [display_value]

/-- C2 witness: a scalar compound with one member lands in exactly one class
and renders as a 1-row, 1-column table. -/
theorem c2_witness :
    ((isScalarShape (.npVoid [("a", .num 1)])).toNat
      + (isScalarCompoundShape (.npVoid [("a", .num 1)])).toNat
      + (isScalarArrayShape (.npVoid [("a", .num 1)])).toNat
      + (isCompoundArrayShape (.npVoid [("a", .num 1)])).toNat = 1) ∧
    (display_value "f" (.npVoid [("a", .num 1)]) (initViewer none)).table.colCount = 1 := by
  have h := c2_display_value_dispatch "f" (.npVoid [("a", .num 1)]) (initViewer none)
  exact ⟨h.1, (h.2.2.1 _ rfl).2.1⟩

/-- C6: a non-compound numeric array of dimension 2 or higher renders as a
single "value" column whose row count is the product of the dimensions, with
the entries in row-major (`reshape(-1)`, i.e. C-order buffer) order; a 1-D
numeric array renders one element per row without flattening. -/
theorem c6_display_value_numeric_array (fn : String) (v : Viewer)
    (shape : List Nat) (data : List Rat) (hwf : data.length = shape.prod) :
    (2 ≤ shape.length →
      (display_value fn (.npNumArr shape data) v).table.rowCount = shape.prod ∧
      (display_value fn (.npNumArr shape data) v).table.colCount = 1 ∧
      (display_value fn (.npNumArr shape data) v).table.hHeaders = ["value"] ∧
      (display_value fn (.npNumArr shape data) v).table.cells
        = data.map fun q => [fmtCell (.num q)]) ∧
    (shape.length = 1 →
      (display_value fn (.npNumArr shape data) v).table.rowCount = data.length ∧
      (display_value fn (.npNumArr shape data) v).table.colCount = 1 ∧
      (display_value fn (.npNumArr shape data) v).table.cells
        = data.map fun q => [fmtCell (.num q)]) := by
  have hcells : (List.range data.length).map
      (fun i => [fmtCell (.num (data.getD i 0))]) = data.map fun q => [fmtCell (.num q)] :=
    map_range_getD data 0 fun q => [fmtCell (.num q)]
  constructor
  · intro h2
    have hne : ¬ shape.length = 1 := by omega
    refine ⟨by simp [display_value, hne], by simp [display_value, hne],
      by simp [display_value, hne], ?_⟩
    simp only [display_value, hne, if_false]
    rw [← hwf, hcells]
  · intro h1
    obtain ⟨n, rfl⟩ := List.length_eq_one.mp h1
    have hn : data.length = n := by simpa using hwf
    rw [hn] at hcells
    refine ⟨?_, by simp [display_value], ?_⟩
    · simp only [display_value]
      simp
      omega
    · simpa [display_value] using hcells

/-- C6 witness: a 2x2 array flattens to four single-column rows in row-major
order; a length-2 1-D array renders one element per row. -/
theorem c6_witness :
    (display_value "f" (.npNumArr [2, 2] [1, 2, 3, 4]) (initViewer none)).table.rowCount = 4 ∧
    (display_value "f" (.npNumArr [2, 2] [1, 2, 3, 4]) (initViewer none)).table.cells
      = [(1 : Rat), 2, 3, 4].map (fun q => [fmtCell (.num q)]) ∧
    (display_value "f" (.npNumArr [2] [5, 6]) (initViewer none)).table.rowCount = 2 := by
  have h := c6_display_value_numeric_array "f" (initViewer none) [2, 2] [1, 2, 3, 4] (by decide)
  have h2 := c6_display_value_numeric_array "f" (initViewer none) [2] [5, 6] (by decide)
  exact ⟨(h.1 (by decide)).1, (h.1 (by decide)).2.2.2, (h2.2 rfl).1⟩

/-- C1: a 1-D array of compound records with `R` entries renders as a table
with `R + 1` rows and one column per member name; row 0 is labeled "SUM" and
holds, for each scalar member, the sum of that member over all entries, and
rows 1 to `R`, labeled `0` to `R - 1`, hold the individual entries in index
order, each formatted by `_format_value`. -/
theorem c1_display_value_compound_array (fn : String) (v : Viewer)
    (nm : List (String × MTy)) (recs : List (List CellVal)) :
    (display_value fn (.npCompArr nm recs) v).table.rowCount = recs.length + 1 ∧
    (display_value fn (.npCompArr nm recs) v).table.colCount = nm.length ∧
    (display_value fn (.npCompArr nm recs) v).table.hHeaders = nm.map (·.1) ∧
    (display_value fn (.npCompArr nm recs) v).table.vHeaders
      = "SUM" :: (List.range recs.length).map toString ∧
    (∀ i r, recs.get? i = some r →
      (display_value fn (.npCompArr nm recs) v).table.cells.get? (i + 1)
        = some (r.map fmtCell)) ∧
    (∀ (j : Nat) (qs : List Rat), j < nm.length →
      (nm.getD j ("", .scalar)).2 = .scalar →
      recs.map (fun r => r.getD j (.num 0)) = qs.map CellVal.num →
      ((display_value fn (.npCompArr nm recs) v).table.cells.headD []).get? j
        = some (fmtCell (.num qs.sum))) := by
  refine ⟨by simp [display_value], by simp [display_value], by simp [display_value],
    by simp [display_value], ?_, ?_⟩
  · intro i r hir
    simp only [display_value]
    show ((recs.map fun r => r.map fmtCell).get? i) = some (r.map fmtCell)
    rw [List.get?_map, hir]
    rfl
  · intro j qs hj hty hcol
    simp only [display_value]
    show (((List.range nm.length).map fun j =>
        fmtCell (colSum (nm.getD j ("", .scalar)).2
          (recs.map fun r => r.getD j (.num 0)))).get? j)
      = some (fmtCell (.num qs.sum))
    rw [List.get?_map, List.get?_range hj]
    show some (fmtCell (colSum (nm.getD j ("", .scalar)).2
      (recs.map fun r => r.getD j (.num 0)))) = _
    rw [hty, hcol, colSum_num]

/-- C1 witness: two records over two scalar members; the SUM row holds the
member sums and row 1 holds the first record. -/
theorem c1_witness :
    (display_value "f" (.npCompArr [("a", .scalar), ("b", .scalar)]
        [[.num 1, .num 2], [.num 3, .num 4]]) (initViewer none)).table.rowCount = 3 ∧
    ((display_value "f" (.npCompArr [("a", .scalar), ("b", .scalar)]
        [[.num 1, .num 2], [.num 3, .num 4]]) (initViewer none)).table.cells.headD []).get? 0
      = some (fmtCell (.num ([(1 : Rat), 3].sum))) ∧
    (display_value "f" (.npCompArr [("a", .scalar), ("b", .scalar)]
        [[.num 1, .num 2], [.num 3, .num 4]]) (initViewer none)).table.cells.get? 1
      = some ([CellVal.num 1, CellVal.num 2].map fmtCell) := by
  have h := c1_display_value_compound_array "f" (initViewer none)
    [("a", .scalar), ("b", .scalar)] [[.num 1, .num 2], [.num 3, .num 4]]
  exact ⟨h.1, h.2.2.2.2.2 0 [1, 3] (by decide) rfl rfl, h.2.2.2.2.1 0 _ rfl⟩

/-! Example data used by the error-handling claims. -/

/-- A dataset whose single record read raises. -/
def exDsFail : StatsDataset := { rootInFields := true, records := [none] }

/-- A viewer with that dataset open and nothing selected. -/
def exViewerFail : Viewer := { initViewer none with dset := some exDsFail }

/-- C4 counterexample: with no snapshot selected, selecting row 0 of a
dataset whose record read fails shows an error dialog, yet
`current_snapshot_index` has changed from `none` to `some 0` — the claim
that a failed read changes no viewer state is false. -/
theorem c4_counterexample :
    (on_snapshot_selected exViewerFail 0).dialogs.length
      = exViewerFail.dialogs.length + 1 ∧
    (on_snapshot_selected exViewerFail 0).current_snapshot_index
      ≠ exViewerFail.current_snapshot_index := by
  constructor
  · rfl
  · intro h
    simp [on_snapshot_selected, exViewerFail, exDsFail, readRecord, initViewer] at h

/-- C4 (amended): when reading a snapshot record or a field value fails, an
error dialog is shown and the operation stops without retry; the current
record, the field list, the table and the snapshot list are unchanged —
however, before the failure `on_snapshot_selected` has already set
`current_snapshot_index` to the selected row, and `on_field_selected` has
already set `last_field_name` to the selected field. -/
theorem c4_read_failure_frame (v : Viewer) (row : Int) (hrow : 0 ≤ row) :
    (∀ ds, v.dset = some ds → readRecord ds row = none →
      (on_snapshot_selected v row).dialogs.length = v.dialogs.length + 1 ∧
      (on_snapshot_selected v row).current_snapshot_index = some row ∧
      (on_snapshot_selected v row).current_record = v.current_record ∧
      (on_snapshot_selected v row).field_list = v.field_list ∧
      (on_snapshot_selected v row).table = v.table ∧
      (on_snapshot_selected v row).last_field_name = v.last_field_name ∧
      (on_snapshot_selected v row).snapshot_list = v.snapshot_list) ∧
    (∀ rec fname, v.current_record = some rec →
      v.field_list[row.toNat]? = some fname → fieldRead rec fname = none →
      (on_field_selected v row).dialogs.length = v.dialogs.length + 1 ∧
      (on_field_selected v row).last_field_name = some fname ∧
      (on_field_selected v row).current_record = v.current_record ∧
      (on_field_selected v row).current_snapshot_index = v.current_snapshot_index ∧
      (on_field_selected v row).field_list = v.field_list ∧
      (on_field_selected v row).table = v.table ∧
      (on_field_selected v row).snapshot_list = v.snapshot_list) := by
  have hneg : ¬ row < 0 := by omega
  constructor
  · intro ds hds hread
    simp [on_snapshot_selected, hneg, hds, hread]
  · intro rec fname hrec hget hfr
    simp [on_field_selected, hneg, hrec, hget, hfr]

/-- C4 witness: the amended frame conditions at the concrete failing
dataset, plus the field-side frame at a record whose field read fails. -/
theorem c4_witness :
    (on_snapshot_selected exViewerFail 0).table = exViewerFail.table ∧
    (on_snapshot_selected exViewerFail 0).current_record
      = exViewerFail.current_record ∧
    (on_field_selected { exViewerFail with
        current_record := some ⟨[("x", none)]⟩, field_list := ["x"] } 0).last_field_name
      = some "x" := by
  have h := c4_read_failure_frame exViewerFail 0 (by decide)
  have h1 := h.1 exDsFail rfl rfl
  have h2 := (c4_read_failure_frame { exViewerFail with
      current_record := some ⟨[("x", none)]⟩, field_list := ["x"] } 0 (by decide)).2
    ⟨[("x", none)]⟩ "x" rfl rfl rfl
  exact ⟨h1.2.2.2.2.1, h1.2.2.1, h2.2.1⟩

/-- C3: `open_file` succeeds — leaves `h5_file` and `dset` set, populates
the snapshot list with one item per record, and shows no dialog — exactly
when the file opens as HDF5, contains a "stats" dataset, and that dataset's
compound dtype has a "root" field; in every failure case one error dialog is
shown and `h5_file` and `dset` end as `None`.  (The entry hypothesis is the
invariant, maintained by every code path, that `dset` is `None` whenever
`h5_file` is.) -/
theorem c3_open_file_success_iff (w : World) (v : Viewer) (p : String)
    (hinv : v.h5_file = none → v.dset = none) :
    (∀ f ds, w.openAt p = .ok f → f.stats = some ds → ds.rootInFields = true →
      (open_file w v p).h5_file = some f ∧
      (open_file w v p).dset = some ds ∧
      (open_file w v p).snapshot_list.length = ds.records.length ∧
      (open_file w v p).dialogs = v.dialogs) ∧
    (((∃ e, w.openAt p = .fail e) ∨
      (∃ f, w.openAt p = .ok f ∧ f.stats = none) ∨
      (∃ f ds, w.openAt p = .ok f ∧ f.stats = some ds ∧ ds.rootInFields = false)) →
      (open_file w v p).h5_file = none ∧
      (open_file w v p).dset = none ∧
      (open_file w v p).dialogs.length = v.dialogs.length + 1) := by
  constructor
  · intro f ds hopen hstats hroot
    cases hh : v.h5_file <;>
      simp [open_file, hh, hopen, hstats, hroot, save_state]
  · rintro (⟨e, he⟩ | ⟨f, hf, hs⟩ | ⟨f, ds, hf, hs, hr⟩) <;> cases hh : v.h5_file
    · simp [open_file, hh, he, hinv hh]
    · simp [open_file, hh, he]
    · simp [open_file, hh, hf, hs, hinv hh]
    · simp [open_file, hh, hf, hs]
    · simp [open_file, hh, hf, hs, hr]
    · simp [open_file, hh, hf, hs, hr]

/-- A world in which opening any path fails. -/
def wFail : World := ⟨fun _ => false, fun _ => .fail "boom"⟩

/-- C3 witness: on a failing open, `h5_file` and `dset` are `None` and one
dialog was shown. -/
theorem c3_witness :
    (open_file wFail (initViewer none) "zsim.h5").h5_file = none ∧
    (open_file wFail (initViewer none) "zsim.h5").dset = none ∧
    (open_file wFail (initViewer none) "zsim.h5").dialogs.length
      = (initViewer none).dialogs.length + 1 := by
  have h := c3_open_file_success_iff wFail (initViewer none) "zsim.h5" (fun _ => rfl)
  exact h.2 (Or.inl ⟨"boom", rfl⟩)

/-- Closed form of a successful `open_file`. -/
theorem open_file_ok (w : World) (v : Viewer) (p : String) (f : H5File)
    (ds : StatsDataset) (hopen : w.openAt p = .ok f) (hstats : f.stats = some ds)
    (hroot : ds.rootInFields = true) :
    open_file w v p =
      save_state
        { v with h5_file := some f, dset := some ds, current_file_path := some p,
                 watched_paths := [p],
                 snapshot_list := (List.range ds.records.length).map fun i =>
                   snapLabel i (ds.records.getD i none),
                 snapshot_row := -1, field_list := [], field_row := -1, table := {},
                 window_title := s!"ZSim HDF5 Viewer - {p}",
                 info_label := "Select a snapshot on the left, then a field in the middle.",
                 current_snapshot_index := none, current_record := none,
                 last_field_name := none } := by
  cases hh : v.h5_file <;> simp [open_file, hh, hopen, hstats, hroot]

/-- C5: after a successful `open_file` on a dataset with `N` records the
snapshot list has exactly `N` items in index order; item `i` carries the
phase/time metadata label when record `i` (and its metadata) reads
successfully, and just the index `i` otherwise. -/
theorem c5_open_file_snapshot_list (w : World) (v : Viewer) (p : String)
    (f : H5File) (ds : StatsDataset) (hopen : w.openAt p = .ok f)
    (hstats : f.stats = some ds) (hroot : ds.rootInFields = true) :
    (open_file w v p).snapshot_list.length = ds.records.length ∧
    ∀ i, i < ds.records.length →
      ((∃ rec ph t, ds.records.getD i none = some rec ∧
          metaOf rec = some (ph, t) ∧
          (open_file w v p).snapshot_list.getD i ""
            = s!"{i}: phase={ph}, time={t}") ∨
       ((ds.records.getD i none).bind metaOf = none ∧
          (open_file w v p).snapshot_list.getD i "" = s!"{i}")) := by
  rw [open_file_ok w v p f ds hopen hstats hroot]
  constructor
  · simp [save_state]
  · intro i hi
    cases hr : ds.records.getD i none with
    | none =>
        refine Or.inr ⟨rfl, ?_⟩
        show (((List.range ds.records.length).map fun j =>
          snapLabel j (ds.records.getD j none)).getD i "") = _
        rw [getD_range_map _ _ i hi "", hr]
        rfl
    | some rec =>
        cases hmm : metaOf rec with
        | none =>
            refine Or.inr ⟨hmm, ?_⟩
            show (((List.range ds.records.length).map fun j =>
              snapLabel j (ds.records.getD j none)).getD i "") = _
            rw [getD_range_map _ _ i hi "", hr]
            simp [snapLabel, hmm]
        | some pt =>
            refine Or.inl ⟨rec, pt.1, pt.2, rfl, by rw [hmm], ?_⟩
            show (((List.range ds.records.length).map fun j =>
              snapLabel j (ds.records.getD j none)).getD i "") = _
            rw [getD_range_map _ _ i hi "", hr]
            simp [snapLabel, hmm]

/-- A record with readable phase/time metadata. -/
def exRecOk : Record :=
  ⟨[("phase", some (.npNum 3)), ("time", some (.npNumArr [4] [0, 0, 0, 7]))]⟩

/-- A dataset with one good record and one failing record. -/
def exDsOk : StatsDataset := { rootInFields := true, records := [some exRecOk, none] }

/-- A world in which every path exists and opens to `exDsOk`. -/
def wOk : World := ⟨fun _ => true, fun _ => .ok ⟨some exDsOk⟩⟩

/-- C5 witness: opening the two-record dataset yields two labels; item 0
carries the phase/time metadata of its record. -/
theorem c5_witness :
    (open_file wOk (initViewer none) "zsim.h5").snapshot_list.length
      = exDsOk.records.length ∧
    ((∃ rec ph t, exDsOk.records.getD 0 none = some rec ∧
        metaOf rec = some (ph, t) ∧
        (open_file wOk (initViewer none) "zsim.h5").snapshot_list.getD 0 ""
          = s!"{(0 : Nat)}: phase={ph}, time={t}") ∨
     ((exDsOk.records.getD 0 none).bind metaOf = none ∧
        (open_file wOk (initViewer none) "zsim.h5").snapshot_list.getD 0 ""
          = s!"{(0 : Nat)}")) := by
  have h := c5_open_file_snapshot_list wOk (initViewer none) "zsim.h5"
    ⟨some exDsOk⟩ exDsOk rfl rfl rfl
  exact ⟨h.1, h.2 0 (by decide)⟩

/-- Effect of `on_snapshot_selected` when no previous field name is set (the
restore paths select a snapshot right after `open_file` cleared
`last_field_name`): the index is recorded whether or not the record read
succeeds, and the unrelated state is untouched. -/
theorem on_snapshot_selected_restore (v : Viewer) (ds : StatsDataset) (i : Int)
    (hds : v.dset = some ds) (hlf : v.last_field_name = none) (hi : 0 ≤ i) :
    (on_snapshot_selected v i).current_snapshot_index = some i ∧
    (on_snapshot_selected v i).last_field_name = none ∧
    (on_snapshot_selected v i).dark_mode = v.dark_mode ∧
    (on_snapshot_selected v i).current_file_path = v.current_file_path ∧
    (on_snapshot_selected v i).snapshot_list = v.snapshot_list ∧
    (on_snapshot_selected v i).snapshot_row = v.snapshot_row := by
  have hneg : ¬ i < 0 := by omega
  cases hr : readRecord ds i with
  | none => simp [on_snapshot_selected, hneg, hds, hr, hlf]
  | some rec => simp [on_snapshot_selected, hneg, hds, hr, hlf, save_state]

/-- The open-then-reselect pattern shared by the restore paths: open `p`
from viewer `u`, then, when a saved index `snap` fits the new list, reselect
that row and restore the saved field name `fld`.  Characterises the result's
dark mode, file path, list length, and selection state. -/
theorem restore_block (w : World) (u : Viewer) (p : String) (f : H5File)
    (ds : StatsDataset) (snap : Option Int) (fld : Option String)
    (hopen : w.openAt p = .ok f) (hstats : f.stats = some ds)
    (hroot : ds.rootInFields = true) :
    ∀ res : Viewer,
      res = (match snap with
             | none => open_file w u p
             | some ls =>
                 if 0 ≤ ls ∧ ls < ((open_file w u p).snapshot_list.length : Int) then
                   { snapshot_setCurrentRow (open_file w u p) ls with
                       last_field_name := fld }
                 else open_file w u p) →
      res.dark_mode = u.dark_mode ∧ res.current_file_path = some p ∧
      res.snapshot_list.length = ds.records.length ∧
      (∀ i : Int, snap = some i → 0 ≤ i → i < (ds.records.length : Int) →
          res.current_snapshot_index = some i ∧ res.last_field_name = fld) ∧
      (∀ i : Int, snap = some i → ¬(0 ≤ i ∧ i < (ds.records.length : Int)) →
          res.current_snapshot_index = none ∧ res.last_field_name = none) ∧
      (snap = none → res.current_snapshot_index = none ∧ res.last_field_name = none) := by
  cases snap with
  | none =>
      intro res hres
      replace hres : res = open_file w u p := hres
      rw [open_file_ok w u p f ds hopen hstats hroot] at hres
      subst hres
      refine ⟨by simp [save_state], by simp [save_state], by simp [save_state],
        ?_, ?_, fun _ => by simp [save_state]⟩
      · intro i h
        exact absurd h (by simp)
      · intro i h
        exact absurd h (by simp)
  | some j =>
      intro res hres
      replace hres : res =
          (if 0 ≤ j ∧ j < ((open_file w u p).snapshot_list.length : Int) then
            { snapshot_setCurrentRow (open_file w u p) j with
                last_field_name := fld }
          else open_file w u p) := hres
      rw [open_file_ok w u p f ds hopen hstats hroot] at hres
      simp only [save_state, List.length_map, List.length_range] at hres
      by_cases hin : 0 ≤ j ∧ j < (ds.records.length : Int)
      · rw [if_pos hin] at hres
        simp only [snapshot_setCurrentRow] at hres
        rw [if_neg (show ¬ j = -1 by omega)] at hres
        have hneg : ¬ j < 0 := by omega
        cases hrr : readRecord ds j with
        | none =>
            subst hres
            refine ⟨by simp [on_snapshot_selected, hneg, hrr],
              by simp [on_snapshot_selected, hneg, hrr],
              by simp [on_snapshot_selected, hneg, hrr], ?_, ?_, ?_⟩
            · intro i h h0 hN
              cases h
              exact ⟨by simp [on_snapshot_selected, hneg, hrr],
                by simp [on_snapshot_selected, hneg, hrr]⟩
            · intro i h hcon
              cases h
              exact absurd hin hcon
            · intro h
              exact absurd h (by simp)
        | some rec =>
            subst hres
            refine ⟨by simp [on_snapshot_selected, hneg, hrr, save_state],
              by simp [on_snapshot_selected, hneg, hrr, save_state],
              by simp [on_snapshot_selected, hneg, hrr, save_state], ?_, ?_, ?_⟩
            · intro i h h0 hN
              cases h
              exact ⟨by simp [on_snapshot_selected, hneg, hrr, save_state],
                by simp [on_snapshot_selected, hneg, hrr, save_state]⟩
            · intro i h hcon
              cases h
              exact absurd hin hcon
            · intro h
              exact absurd h (by simp)
      · rw [if_neg hin] at hres
        subst hres
        refine ⟨by simp, by simp, by simp, ?_, ?_, fun _ => by simp⟩
        · intro i h h0 hN
          cases h
          exact absurd ⟨h0, hN⟩ hin
        · intro i h hcon
          exact ⟨by simp, by simp⟩

/-- C7: `_save_state` followed by `_load_state` (on a fresh viewer, with the
state file holding what was just saved) restores the dark-mode flag, reopens
the last file when it still exists (here: it opens successfully), and
reselects the last snapshot row exactly when the saved index lies in
`0..count-1` of the restored snapshot list, also restoring the saved field
name in that case; otherwise index and field name stay cleared. -/
theorem c7_save_load_round_trip (w : World) (v : Viewer) (p : String) (f : H5File)
    (ds : StatsDataset) (hp : v.current_file_path = some p) (hpne : p ≠ "")
    (hex : w.fileExists p = true) (hopen : w.openAt p = .ok f)
    (hstats : f.stats = some ds) (hroot : ds.rootInFields = true) :
    (load_state w (initViewer (save_state v).state_file)).dark_mode = v.dark_mode ∧
    (load_state w (initViewer (save_state v).state_file)).current_file_path = some p ∧
    (load_state w (initViewer (save_state v).state_file)).snapshot_list.length
      = ds.records.length ∧
    (∀ i : Int, v.current_snapshot_index = some i → 0 ≤ i →
        i < (ds.records.length : Int) →
        (load_state w (initViewer (save_state v).state_file)).current_snapshot_index
          = some i ∧
        (load_state w (initViewer (save_state v).state_file)).last_field_name
          = v.last_field_name) ∧
    (∀ i : Int, v.current_snapshot_index = some i →
        ¬(0 ≤ i ∧ i < (ds.records.length : Int)) →
        (load_state w (initViewer (save_state v).state_file)).current_snapshot_index
          = none ∧
        (load_state w (initViewer (save_state v).state_file)).last_field_name = none) ∧
    (v.current_snapshot_index = none →
        (load_state w (initViewer (save_state v).state_file)).current_snapshot_index
          = none ∧
        (load_state w (initViewer (save_state v).state_file)).last_field_name = none) := by
  have key := restore_block w
    (apply_dark_mode v.dark_mode { initViewer (some (saveRecord v)) with dark_mode := v.dark_mode })
    p f ds v.current_snapshot_index v.last_field_name hopen hstats hroot
    (load_state w (initViewer (save_state v).state_file))
    (by
      simp only [load_state, save_state, initViewer, saveRecord, apply_dark_mode,
        hp, hpne, hex]
      rw [if_neg not_false, if_neg (by decide : ¬(true = false))])
  exact key

/-- A viewer with an open file, a selected snapshot and a selected field. -/
def exV7 : Viewer :=
  { current_file_path := some "zsim.h5", current_snapshot_index := some 0,
    last_field_name := some "fld", dark_mode := true }

/-- C7 witness: saving and reloading restores dark mode, the snapshot index
and the field name on a concrete viewer over a two-record dataset. -/
theorem c7_witness :
    (load_state wOk (initViewer (save_state exV7).state_file)).dark_mode = true ∧
    (load_state wOk (initViewer (save_state exV7).state_file)).current_snapshot_index
      = some 0 ∧
    (load_state wOk (initViewer (save_state exV7).state_file)).last_field_name
      = some "fld" := by
  have h := c7_save_load_round_trip wOk exV7 "zsim.h5" ⟨some exDsOk⟩ exDsOk
    rfl (by decide) rfl rfl rfl rfl
  have h4 := h.2.2.2.1 0 rfl (by decide) (by decide)
  exact ⟨h.1, h4.1, h4.2⟩

/-- The open-then-reselect pattern of `on_file_changed`, which additionally
assigns the remembered index before reselecting the row. -/
theorem restore_block2 (w : World) (u : Viewer) (p : String) (f : H5File)
    (ds : StatsDataset) (snap : Option Int) (fld : Option String)
    (hopen : w.openAt p = .ok f) (hstats : f.stats = some ds)
    (hroot : ds.rootInFields = true) :
    ∀ res : Viewer,
      res = (match snap with
             | none => open_file w u p
             | some s =>
                 if 0 ≤ s ∧ s < ((open_file w u p).snapshot_list.length : Int) then
                   { snapshot_setCurrentRow
                       { open_file w u p with current_snapshot_index := some s } s with
                       last_field_name := fld }
                 else open_file w u p) →
      res.current_file_path = some p ∧
      res.snapshot_list.length = ds.records.length ∧
      (∀ i : Int, snap = some i → 0 ≤ i → i < (ds.records.length : Int) →
          res.current_snapshot_index = some i ∧ res.last_field_name = fld) ∧
      (∀ i : Int, snap = some i → ¬(0 ≤ i ∧ i < (ds.records.length : Int)) →
          res.current_snapshot_index = none ∧ res.last_field_name = none) ∧
      (snap = none → res.current_snapshot_index = none ∧ res.last_field_name = none) := by
  cases snap with
  | none =>
      intro res hres
      replace hres : res = open_file w u p := hres
      rw [open_file_ok w u p f ds hopen hstats hroot] at hres
      subst hres
      refine ⟨by simp [save_state], by simp [save_state], ?_, ?_,
        fun _ => by simp [save_state]⟩
      · intro i h
        exact absurd h (by simp)
      · intro i h
        exact absurd h (by simp)
  | some j =>
      intro res hres
      replace hres : res =
          (if 0 ≤ j ∧ j < ((open_file w u p).snapshot_list.length : Int) then
            { snapshot_setCurrentRow
                { open_file w u p with current_snapshot_index := some j } j with
                last_field_name := fld }
          else open_file w u p) := hres
      rw [open_file_ok w u p f ds hopen hstats hroot] at hres
      simp only [save_state, List.length_map, List.length_range] at hres
      by_cases hin : 0 ≤ j ∧ j < (ds.records.length : Int)
      · rw [if_pos hin] at hres
        simp only [snapshot_setCurrentRow] at hres
        rw [if_neg (show ¬ j = -1 by omega)] at hres
        have hneg : ¬ j < 0 := by omega
        cases hrr : readRecord ds j with
        | none =>
            subst hres
            refine ⟨by simp [on_snapshot_selected, hneg, hrr],
              by simp [on_snapshot_selected, hneg, hrr], ?_, ?_, ?_⟩
            · intro i h h0 hN
              cases h
              exact ⟨by simp [on_snapshot_selected, hneg, hrr],
                by simp [on_snapshot_selected, hneg, hrr]⟩
            · intro i h hcon
              cases h
              exact absurd hin hcon
            · intro h
              exact absurd h (by simp)
        | some rec =>
            subst hres
            refine ⟨by simp [on_snapshot_selected, hneg, hrr, save_state],
              by simp [on_snapshot_selected, hneg, hrr, save_state], ?_, ?_, ?_⟩
            · intro i h h0 hN
              cases h
              exact ⟨by simp [on_snapshot_selected, hneg, hrr, save_state],
                by simp [on_snapshot_selected, hneg, hrr, save_state]⟩
            · intro i h hcon
              cases h
              exact absurd hin hcon
            · intro h
              exact absurd h (by simp)
      · rw [if_neg hin] at hres
        subst hres
        refine ⟨by simp, by simp, ?_, ?_, fun _ => by simp⟩
        · intro i h h0 hN
          cases h
          exact absurd ⟨h0, hN⟩ hin
        · intro i h hcon
          exact ⟨by simp, by simp⟩

/-- C8: when the watched file changes and still exists (and reopens
successfully), `on_file_changed` reopens the same file and restores the
previously selected snapshot index and field name exactly when the saved
index lies in `0..count-1` of the new snapshot list; when the file no longer
exists, nothing at all is changed. -/
theorem c8_on_file_changed (w : World) (v : Viewer) (p : String) (f : H5File)
    (ds : StatsDataset) (hp : v.current_file_path = some p) (hpne : p ≠ "") :
    (w.fileExists p = false → on_file_changed w v = v) ∧
    (w.fileExists p = true → w.openAt p = .ok f → f.stats = some ds →
      ds.rootInFields = true →
      (on_file_changed w v).current_file_path = some p ∧
      (on_file_changed w v).snapshot_list.length = ds.records.length ∧
      (∀ i : Int, v.current_snapshot_index = some i → 0 ≤ i →
          i < (ds.records.length : Int) →
          (on_file_changed w v).current_snapshot_index = some i ∧
          (on_file_changed w v).last_field_name = v.last_field_name) ∧
      (∀ i : Int, v.current_snapshot_index = some i →
          ¬(0 ≤ i ∧ i < (ds.records.length : Int)) →
          (on_file_changed w v).current_snapshot_index = none ∧
          (on_file_changed w v).last_field_name = none) ∧
      (v.current_snapshot_index = none →
          (on_file_changed w v).current_snapshot_index = none ∧
          (on_file_changed w v).last_field_name = none)) := by
  constructor
  · intro hnex
    simp [on_file_changed, hp, hpne, hnex]
  · intro hex hopen hstats hroot
    exact restore_block2 w v p f ds v.current_snapshot_index v.last_field_name
      hopen hstats hroot (on_file_changed w v)
      (by
        simp only [on_file_changed, hp, hpne, hex]
        rw [if_neg not_false, if_neg (by decide : ¬(true = false))])

/-- C8 witness: a concrete hot-reload restores index and field name, and a
vanished file leaves the viewer untouched. -/
theorem c8_witness :
    (on_file_changed wOk exV7).current_snapshot_index = some 0 ∧
    (on_file_changed wOk exV7).last_field_name = some "fld" ∧
    on_file_changed wFail exV7 = exV7 := by
  have h := (c8_on_file_changed wOk exV7 "zsim.h5" ⟨some exDsOk⟩ exDsOk
    rfl (by decide)).2 rfl rfl rfl rfl
  have h4 := h.2.2.1 0 rfl (by decide) (by decide)
  have h0 := (c8_on_file_changed wFail exV7 "zsim.h5" ⟨some exDsOk⟩ exDsOk
    rfl (by decide)).1 rfl
  exact ⟨h4.1, h4.2, h0⟩

end ZSimView
